import Mathlib

/-!
Verification development for the C&C (content-review) status tracker of the
chatot discord bot.  The definitions below are a shallow embedding of the
relevant TypeScript sources:

* parseCCStage / checkCCUpdates / alertCCStatus / uncacheRemovedThreads
  (src/unnamed/part_005, the current variant, and src/unnamed/part_004,
  the same pipeline without the ad-hoc diagnostic posts);
* the legacy classifier inside findNewThreads (src/src/helpers/cnc.ts);
* the static lookup tables ccSubObj / gens and the prefix vocabularies,
  reproduced from the copies present in the sources (src/unnamed/part_002
  and src/src/helpers/cnc.ts).

JavaScript strings are modelled as Lean String / List Char; the two regular
expressions used by the classifier are modelled by explicit backtracking
matchers that follow the ECMAScript semantics of the concrete patterns.
-/

/-! ## JS character classes -/

/-- ECMAScript \d : the ASCII digits. -/
def jsDigit (c : Char) : Bool := '0' ≤ c && c ≤ '9'

/-- ECMAScript \s : whitespace characters (ASCII part plus the Unicode
space characters named by the standard). -/
def jsSpace (c : Char) : Bool :=
  c == ' ' || c == '\t' || c == '\n' || c == Char.ofNat 11 || c == Char.ofNat 12 ||
  c == '\r' || c == Char.ofNat 0xa0 || c == Char.ofNat 0x1680 ||
  (Char.ofNat 0x2000 ≤ c && c ≤ Char.ofNat 0x200a) ||
  c == Char.ofNat 0x2028 || c == Char.ofNat 0x2029 || c == Char.ofNat 0x202f ||
  c == Char.ofNat 0x205f || c == Char.ofNat 0x3000 || c == Char.ofNat 0xfeff

/-- ECMAScript . (without the s flag): any character except a line
terminator. -/
def jsDot (c : Char) : Bool :=
  !(c == '\n' || c == '\r' || c == Char.ofNat 0x2028 || c == Char.ofNat 0x2029)

/-- ECMAScript \w for word-boundary purposes: ASCII letters, digits and
underscore. -/
def jsWord (c : Char) : Bool :=
  ('a' ≤ c && c ≤ 'z') || ('A' ≤ c && c ≤ 'Z') || jsDigit c || c == '_'

/-- Model of String.prototype.toLowerCase restricted to ASCII (all the
comparisons in the sources are against ASCII literals). -/
def jsToLower (s : String) : String := String.mk (s.data.map Char.toLower)

/-- Whether the word boundary assertion \b holds at position i of cs. -/
def jsBoundary (cs : List Char) (i : Nat) : Bool :=
  match cs.get? (i - 1), cs.get? i with
  | some a, some b => if i == 0 then jsWord b else jsWord a != jsWord b
  | some a, none => jsWord a
  | none, some b => jsWord b
  | none, none => false

/-! ## Generic matching helpers -/

/-- Case-insensitive literal match: if the characters of cs starting at
position p match w up to ASCII case, return the actual slice of cs that was
consumed (the text a JS capture group would hold). -/
def ciTake (cs : List Char) (p : Nat) : List Char → Option (List Char)
  | [] => some []
  | c :: w =>
    match cs.get? p with
    | some c' => if c'.toLower == c.toLower then (ciTake cs (p + 1) w).map (c' :: ·) else none
    | none => none

/-- First result of f over a list, in order (the preference order of a JS
alternation). -/
def pickFirst (f : α → Option β) : List α → Option β
  | [] => none
  | a :: l => (f a).orElse (fun _ => pickFirst f l)

/-- The slice cs[a..b) as a string. -/
def sliceStr (cs : List Char) (a b : Nat) : String := String.mk ((cs.drop a).take (b - a))

/-! ## The progress regex (QC|GP).\x7b0,3\x7d(\d\s?\/\s?\d) (flags gi)

This is the pattern part_005 / part_004 run over thread titles with
matchAll.  Group 1 is the QC/GP tag, group 2 the numeric n/m progress.
The legacy cnc.ts pattern (QC|GP)?:?\s?(\d\s?\/\s?\d) shares the numeric
tail, so the tail is factored out below. -/

/-- One match array of either progress regex: match[0], match[1]
(undefined when the optional tag group did not participate) and match[2]. -/
structure Prog where
  full : String
  g1 : Option String
  g2 : String
deriving Repr, DecidableEq

/-- \/\s?\d starting at position m; returns the end position.  \s? is
greedy: the path consuming a space is preferred, and the fallback can only
apply when the next character is not a space (a space is never a digit). -/
def slashTail (cs : List Char) (m : Nat) : Option Nat :=
  match cs.get? m with
  | some sl =>
    if sl == '/' then
      match cs.get? (m + 1) with
      | some c =>
        if jsSpace c then
          match cs.get? (m + 2) with
          | some d => if jsDigit d then some (m + 3) else none
          | none => none
        else if jsDigit c then some (m + 2) else none
      | none => none
    else none
  | none => none

/-- (\d\s?\/\s?\d) starting at position j; returns the end position and the
captured text (group 2 of both progress regexes). -/
def numTail (cs : List Char) (j : Nat) : Option (Nat × String) :=
  match cs.get? j with
  | some d =>
    if jsDigit d then
      let withSpace : Option Nat :=
        match cs.get? (j + 1) with
        | some c => if jsSpace c then slashTail cs (j + 2) else none
        | none => none
      match withSpace.orElse (fun _ => slashTail cs (j + 1)) with
      | some e => some (e, sliceStr cs j e)
      | none => none
    else none
  | none => none

/-- Whether the n characters of cs starting at j all match the dot. -/
def allDot (cs : List Char) (j : Nat) : Nat → Bool
  | 0 => true
  | n + 1 =>
    match cs.get? j with
    | some c => jsDot c && allDot cs (j + 1) n
    | none => false

/-- Greedy .\x7b0,3\x7d followed by the numeric tail: k separator
characters are tried from k = kmax down to 0. -/
def sepNum (cs : List Char) (j : Nat) : Nat → Option (Nat × String)
  | 0 => numTail cs j
  | k + 1 =>
    (if allDot cs j (k + 1) then numTail cs (j + k + 1) else none).orElse
      (fun _ => sepNum cs j k)

/-- One attempt of (QC|GP).\x7b0,3\x7d(\d\s?\/\s?\d) at position i. -/
def matchProgAt (cs : List Char) (i : Nat) : Option (Nat × Prog) :=
  match (ciTake cs i "QC".data).orElse (fun _ => ciTake cs i "GP".data) with
  | none => none
  | some tag =>
    match sepNum cs (i + 2) 3 with
    | some (e, g2) => some (e, ⟨sliceStr cs i e, some (String.mk tag), g2⟩)
    | none => none

/-- matchAll scan for the title regex: attempt at each position, resume
after the end of a successful match (every match is at least five
characters long, so the scan strictly advances).  The fuel argument bounds
the number of scan steps; cs.length + 1 steps always suffice. -/
def matchAllAux (cs : List Char) : Nat → Nat → List Prog
  | 0, _ => []
  | fuel + 1, i =>
    if cs.length < i then []
    else
      match matchProgAt cs i with
      | some (e, p) => p :: matchAllAux cs fuel e
      | none => matchAllAux cs fuel (i + 1)

/-- All matches of (QC|GP).\x7b0,3\x7d(\d\s?\/\s?\d) (flags gi) in cs, in
order, as produced by title.matchAll in part_005 / part_004. -/
def matchAllProg (cs : List Char) : List Prog := matchAllAux cs (cs.length + 1) 0

/-! ## The classification helpers of parseCCStage (part_005 / part_004) -/

/-- prog.some(val => val?.toLowerCase() === tag) over the match array
[match[0], match[1], match[2]]: undefined?.toLowerCase() is undefined and
never equal to the tag. -/
def progHasTag (p : Prog) (tag : String) : Bool :=
  jsToLower p.full == tag || (p.g1.map jsToLower) == some tag || jsToLower p.g2 == tag

/-- .replace(/ /g, ”): only the space character U+0020 is removed, other
whitespace that \s? may have matched stays. -/
def stripSpaces (s : String) : String := String.mk (s.data.filter (fun c => !(c == ' ')))

/-- String.prototype.split('/'): cut at every slash. -/
def splitSlashAux : List Char → List Char → List String
  | [], acc => [String.mk acc.reverse]
  | c :: rest, acc =>
    if c == '/' then String.mk acc.reverse :: splitSlashAux rest []
    else splitSlashAux rest (c :: acc)

/-- .split('/') on a progress string. -/
def splitSlash (s : String) : List String := splitSlashAux s.data []

/-- progArr[0] === progArr[1] after .split('/') — the source's completeness
test on an (already space-stripped) n/m progress string; get? models the
undefined entries of a short JS array. -/
def progSame (s : String) : Bool :=
  ((splitSlash s).get? 0) == ((splitSlash s).get? 1)

/-- Whether needle occurs at the start of hay. -/
def leadsWith (needle hay : List Char) : Bool :=
  match needle, hay with
  | [], _ => true
  | _ :: _, [] => false
  | c :: n, d :: h => c == d && leadsWith n h

/-- Whether needle occurs contiguously anywhere in hay
(String.prototype.includes). -/
def containsSeq (needle : List Char) : List Char → Bool
  | [] => leadsWith needle []
  | c :: rest => leadsWith needle (c :: rest) || containsSeq needle rest

/-- title.toLowerCase().includes('done'). -/
def containsDone (title : String) : Bool :=
  containsSeq "done".data (jsToLower title).data

/-! ## Stage determination from the title (part_005 lines 272-365) -/

/-- The stage/progress pair computed by the title heuristic of parseCCStage
when the prefix tag did not determine the stage.  none models the
defensive continue statements (the thread is skipped).  The source
guards of the form gpStageMatch[0].length < 3 are omitted: a JS match
array of this regex always has length 3. -/
def titleStage (title : String) : Option (String × String) :=
  let progressions := matchAllProg title.data
  if progressions.isEmpty then some ("WIP", "")
  else if containsDone title then some ("Done", "")
  else if 2 ≤ progressions.length then
    match progressions.filter (fun p => progHasTag p "gp") with
    | [] => none
    | gp :: _ =>
      let gpStageProgress := stripSpaces gp.g2
      match progressions.filter (fun p => progHasTag p "qc") with
      | [] => none
      | qc :: _ =>
        let qcStageProgress := stripSpaces qc.g2
        if !(progSame qcStageProgress) then some ("QC", qcStageProgress)
        else if progSame qcStageProgress && progSame gpStageProgress then some ("Done", "")
        else some ("GP", gpStageProgress)
  else if progressions.any (fun p => progHasTag p "gp") then
    match progressions.filter (fun p => progHasTag p "gp") with
    | gp :: _ =>
      let gpStageProgress := stripSpaces gp.g2
      if progSame gpStageProgress then some ("Done", "")
      else some ("GP", gpStageProgress)
    | [] => none
  else if progressions.any (fun p => progHasTag p "qc") then
    match progressions.filter (fun p => progHasTag p "qc") with
    | qc :: _ =>
      let qcStageProgress := stripSpaces qc.g2
      if progSame qcStageProgress then some ("GP", "0/?")
      else some ("QC", qcStageProgress)
    | [] => none
  else some ("WIP", "")

/-- Progress backfill (part_005 lines 368-390): when the progress is still
empty and the stage is QC or GP, look for a title match tagged with the
stage, then for an untagged numeric match.  With the title regex group 1
always participates, so the untagged fallback filter is empty. -/
def backfillProgress (title stage progress : String) : String :=
  if progress == "" then
    let progressions := matchAllProg title.data
    if stage == "GP" || stage == "QC" then
      match progressions.filter (fun p => progHasTag p (jsToLower stage)) with
      | p :: _ => stripSpaces p.g2
      | [] =>
        if !progressions.isEmpty then
          match progressions.filter (fun p => p.g1 == none && !(p.g2 == "")) with
          | p :: _ => stripSpaces p.g2
          | [] => progress
        else progress
    else progress
  else progress

/-! ## Prefix-tag vocabularies (constants.js, reproduced in
src/src/helpers/cnc.ts lines 74-87) -/

/-- OMPrefix. -/
def omTagList : List String :=
  ["NFE", "AAA", "2v2", "GG", "AG", "BH", "M&M", "STAB", "ZU", "PH"]

/-- pastGenPrefix. -/
def pastGenTagList : List String :=
  ["Gen 1", "Gen 2", "Gen 3", "Gen 4", "Gen 5", "Gen 6", "Gen 7", "Gen 8"]

/-- rbyOtherPrefix. -/
def rbyOtherTagList : List String :=
  ["NU", "PU", "Stadium OU", "Tradebacks OU", "UU", "Ubers"]

/-- The lookbehind regex (?<=Gen )\d applied to a prefix phrase: the first
digit preceded by the literal text Gen-space. -/
def genTagDigitAux (cs : List Char) : Nat → Nat → Option Char
  | 0, _ => none
  | fuel + 1, j =>
    match cs.get? j with
    | none => none
    | some c =>
      if jsDigit c && 4 ≤ j && leadsWith "Gen ".data (cs.drop (j - 4)) then some c
      else genTagDigitAux cs fuel (j + 1)

/-- match(/(?<=Gen )\d/) on a tag phrase. -/
def genTagDigit (s : String) : Option Char := genTagDigitAux s.data (s.data.length + 1) 0

/-- Outcome of the prefix-tag analysis at the top of parseCCStage
(part_005 lines 237-270). -/
inductive TagOutcome where
  /-- The tag fixed the stage directly. -/
  | stagePre (stage : String)
  /-- Resource / Announcement: the thread is skipped. -/
  | skip
  /-- Fall through to the title heuristic, with the generation and tier
  presets taken from the tag. -/
  | fall (gen : List String) (tier : List String)
deriving Repr, DecidableEq

/-- The chain of phrase_text comparisons of parseCCStage. -/
def tagAnalysis : Option String → TagOutcome
  | some "WIP" => .stagePre "WIP"
  | some "Quality Control" => .stagePre "QC"
  | some "Copyediting" => .stagePre "GP"
  | some "HTML" => .stagePre "HTML"
  | some "Done" => .stagePre "Done"
  | some "Resource" => .skip
  | some "Announcement" => .skip
  | some t =>
    if omTagList.contains t then .fall [] [t]
    else if pastGenTagList.contains t then
      match genTagDigit t with
      | some d => .fall [String.mk [d]] []
      | none => .fall [] []
    else if rbyOtherTagList.contains t then .fall [] [t]
    else .fall [] []
  | none => .fall [] []

/-- The (stage, progress) pair a thread ends up with after the tag
analysis, the title heuristic and the progress backfill; none when the
thread is skipped on this path. -/
def stageProgressOf (title : String) (tag : Option String) : Option (String × String) :=
  match tagAnalysis tag with
  | .skip => none
  | .stagePre s => some (s, backfillProgress title s "")
  | .fall _ _ =>
    match titleStage title with
    | none => none
    | some (s, p) => some (s, backfillProgress title s p)

/-! ## Static lookup tables -/

/-- Generation abbreviation vocabulary (the gens object of constants.js,
reproduced in src/src/helpers/cnc.ts lines 134-165), as an association
list; object lookup is modelled by List.lookup. -/
def gensMap : List (String × String) :=
  [("sv", "9"), ("9", "9"),
   ("swsh", "8"), ("ss", "8"), ("8", "8"),
   ("usum", "7"), ("usm", "7"), ("sm", "7"), ("7", "7"),
   ("oras", "6"), ("xy", "6"), ("6", "6"),
   ("b2w2", "5"), ("bw2", "5"), ("bw", "5"), ("5", "5"),
   ("hgss", "4"), ("dpp", "4"), ("dp", "4"), ("4", "4"),
   ("rse", "3"), ("rs", "3"), ("adv", "3"), ("3", "3"),
   ("gsc", "2"), ("gs", "2"), ("2", "2"),
   ("rby", "1"), ("rb", "1"), ("1", "1")]

/-- gens[key]; none models a JS undefined result. -/
def gensLookup (k : String) : Option String := gensMap.lookup k

/-- One entry of the monitored-forum-section table: the generations and
tiers configured for a forum section. -/
structure CCSubEntry where
  gens : List String
  tiers : List String
deriving Repr, DecidableEq

/-- The ccSubObj static table of constants.js, keyed by node id
(reproduced from the copy in src/unnamed/part_002 lines 30-183; the url
field, unused by classification, is omitted). -/
def ccSubObj : List (String × CCSubEntry) :=
  let past := ["1", "2", "3", "4", "5", "6", "7", "8"]
  let oms := ["nfe", "almost-any-ability", "2v2-doubles", "godly-gift", "ag", "bh",
              "mix-and-mega", "stabmons", "zu", "partners-in-crime", "inh", "ubers-uu"]
  [("758", ⟨["9"], ["ou"]⟩),
   ("759", ⟨["9"], ["uber"]⟩),
   ("539", ⟨past, ["uber"]⟩),
   ("772", ⟨["9"], ["uu"]⟩),
   ("576", ⟨past, ["uu"]⟩),
   ("774", ⟨["9"], ["nu"]⟩),
   ("587", ⟨past, ["nu"]⟩),
   ("775", ⟨["9"], ["pu"]⟩),
   ("844", ⟨past, ["pu"]⟩),
   ("760", ⟨["9"], ["lc"]⟩),
   ("540", ⟨past, ["lc"]⟩),
   ("761", ⟨["9"], ["doubles"]⟩),
   ("541", ⟨past, ["doubles"]⟩),
   ("762", ⟨["9"], ["monotype"]⟩),
   ("660", ⟨past, ["monotype"]⟩),
   ("763", ⟨["9"], oms⟩),
   ("770", ⟨past, oms⟩),
   ("764", ⟨["9"], ["1v1"]⟩),
   ("476", ⟨past, ["1v1"]⟩),
   ("765", ⟨["9"], ["national-dex"]⟩),
   ("828", ⟨["9"], ["national-dex-monotype"]⟩),
   ("839", ⟨["9"], ["national-dex-uu"]⟩),
   ("768", ⟨["1", "2", "3", "4", "5", "6", "7", "8", "9"], ["cap"]⟩),
   ("766", ⟨["9"], ["bss"]⟩),
   ("767", ⟨["9"], ["vgc"]⟩),
   ("148", ⟨past, ["ou"]⟩),
   ("512", ⟨["1"], ["nu", "pu", "stadium-ou", "tradebacks-ou", "uu", "uber"]⟩),
   ("608", ⟨["7"], ["lgpe-ou"]⟩),
   ("707", ⟨["8"], ["bdsp-ou"]⟩),
   ("871", ⟨["9"], ["draft"]⟩)]

/-- ccSubObj[key]; none models a JS undefined result (whose member access
would raise a TypeError). -/
def ccSubObjLookup (k : String) : Option CCSubEntry := ccSubObj.lookup k

/-- The node ids monitored by the tracker: the keys of ccSubObj. -/
def ccSubIDs : List Nat :=
  [758, 759, 539, 772, 576, 774, 587, 775, 844, 760, 540, 761, 541, 762, 660,
   763, 770, 764, 476, 765, 828, 839, 768, 766, 767, 148, 512, 608, 707, 871]

/-! ## The generation regex of the node-770 branch

\b((Gen|G|Generation)\s*([1-9])|(SV|SWSH|SS|USUM|USM|SM|ORAS|XY|B2W2|BW2|BW|HGSS|DPP|DP|RSE|RS|ADV|GSC|GS|RBY|RB))*\b
with flag i, used with String.prototype.match (first match).  Capture
groups inside the starred group are reset at each repetition, so the
returned groups 3 and 4 come from the last repetition taken. -/

/-- Groups 3 (the [1-9] digit) and 4 (the abbreviation) of the generation
regex. -/
structure GenGroups where
  g3 : Option Char
  g4 : Option String
deriving Repr, DecidableEq

/-- The digit class [1-9]. -/
def genDigits : List Char := ['1', '2', '3', '4', '5', '6', '7', '8', '9']

/-- The word alternatives Gen|G|Generation, in alternation order. -/
def genWords : List (List Char) := ["Gen".data, "G".data, "Generation".data]

/-- The generation abbreviations, in alternation order. -/
def genAbbrevs : List (List Char) :=
  ["SV".data, "SWSH".data, "SS".data, "USUM".data, "USM".data, "SM".data, "ORAS".data,
   "XY".data, "B2W2".data, "BW2".data, "BW".data, "HGSS".data, "DPP".data, "DP".data,
   "RSE".data, "RS".data, "ADV".data, "GSC".data, "GS".data, "RBY".data, "RB".data]

/-- Length of the maximal run of \s characters starting at position p
(\s* is greedy, and backtracking it is vacuous here because the digit that
must follow is never a space). -/
def spaceRunAux (cs : List Char) : Nat → Nat → Nat
  | 0, _ => 0
  | fuel + 1, p =>
    match cs.get? p with
    | some c => if jsSpace c then spaceRunAux cs fuel (p + 1) + 1 else 0
    | none => 0

/-- Maximal \s run at p. -/
def spaceRun (cs : List Char) (p : Nat) : Nat := spaceRunAux cs (cs.length + 1) p

/-- First alternative (Gen|G|Generation)\s*([1-9]) at position p.  The
three word alternatives are mutually exclusive (a ci-match of one excludes
completing the others at the same position), so taking the first that
completes is faithful to backtracking. -/
def genAlt1 (cs : List Char) (p : Nat) : Option (Nat × GenGroups) :=
  pickFirst
    (fun w =>
      match ciTake cs p w with
      | none => none
      | some s =>
        let q := p + s.length + spaceRun cs (p + s.length)
        match cs.get? q with
        | some d => if genDigits.contains d then some (q + 1, ⟨some d, none⟩) else none
        | none => none)
    genWords

/-- Second alternative: the abbreviation list.  Longer abbreviations
precede their prefixes in the list, and falling back from a longer
abbreviation to a shorter prefix can never extend to a full regex match
(the dropped character is always a word character that then fails the
final \b and starts no alternative), so taking the first ci-match is
faithful to backtracking. -/
def genAlt2 (cs : List Char) (p : Nat) : Option (Nat × GenGroups) :=
  pickFirst
    (fun a => (ciTake cs p a).map (fun s => (p + s.length, ⟨none, some (String.mk s)⟩)))
    genAbbrevs

/-- The candidate repetitions of the starred group at position p, in
backtracking preference order. -/
def repAlts (cs : List Char) (p : Nat) : List (Nat × GenGroups) :=
  (genAlt1 cs p).toList ++ (genAlt2 cs p).toList

/-- Greedy search for the starred group followed by the final \b: prefer
taking one more repetition; only when no continuation succeeds stop at the
current position, which requires the boundary to hold there.  Each
repetition consumes at least one character, so cs.length + 1 fuel always
suffices. -/
def starSearch (cs : List Char) : Nat → Nat → GenGroups → Option (Nat × GenGroups)
  | 0, p, g => if jsBoundary cs p then some (p, g) else none
  | fuel + 1, p, g =>
    (pickFirst (fun eg => starSearch cs fuel eg.1 eg.2) (repAlts cs p)).orElse
      (fun _ => if jsBoundary cs p then some (p, g) else none)

/-- String.prototype.match of the generation regex: the first position at
which the whole pattern (initial \b, starred group, final \b) matches;
returns the start, the end and the groups of the last repetition.  The
match text is empty iff start = end. -/
def genMatchAux (cs : List Char) : Nat → Nat → Option (Nat × Nat × GenGroups)
  | 0, _ => none
  | fuel + 1, i =>
    match (if jsBoundary cs i then starSearch cs (cs.length + 1) i ⟨none, none⟩ else none) with
    | some (e, g) => some (i, e, g)
    | none => if i < cs.length then genMatchAux cs fuel (i + 1) else none

/-- thread.title.match(genRegex), null modelled as none. -/
def genMatch (title : String) : Option (Nat × Nat × GenGroups) :=
  genMatchAux title.data (title.data.length + 1) 0

/-! ## Generation / tier resolution and the full classifier -/

/-- Outcome of the node-770 generation extraction (part_005 lines
421-433). -/
inductive Gen770 where
  /-- No match or an empty match: the thread is skipped (continue). -/
  | skip
  /-- matchArr[3] and matchArr[4] both undefined with a non-empty match:
  (matchArr[3] || matchArr[4]).toLowerCase() would raise a TypeError. -/
  | error
  /-- genDesr, the lower-cased group text. -/
  | found (desr : String)
deriving Repr, DecidableEq

/-- The genDesr computation of the node-770 branch. -/
def gen770Desr (title : String) : Gen770 :=
  match genMatch title with
  | none => .skip
  | some (i, e, g) =>
    if e == i then .skip
    else
      match g.g3 with
      | some d => .found (jsToLower (String.mk [d]))
      | none =>
        match g.g4 with
        | some s => .found (jsToLower s)
        | none => .error

/-- Result of the generation-resolution block of parseCCStage. -/
inductive GenRes where
  | ok (gen : List String)
  | skip
  | error
deriving Repr, DecidableEq

/-- part_005 lines 396-459: keep a tag-derived generation; otherwise node
770 parses the title (gens[genDesr] is undefined for an unknown key in JS
— represented by the unreachable getD default, see the lookup lemmas),
and any other node reads ccSubObj, whose undefined member access is a
TypeError. -/
def resolveGen (title : String) (node : Nat) (gen0 : List String) : GenRes :=
  if gen0.isEmpty then
    if node == 770 then
      match gen770Desr title with
      | .skip => .skip
      | .error => .error
      | .found d => .ok [(gensLookup d).getD "undefined"]
    else
      match ccSubObjLookup (toString node) with
      | none => .error
      | some entry => .ok entry.gens
  else .ok gen0

/-- part_005 lines 462-464: tier from the thread map unless the tag set
it. -/
def resolveTier (node : Nat) (tier0 : List String) : Option (List String) :=
  if tier0.isEmpty then (ccSubObjLookup (toString node)).map (fun e => e.tiers)
  else some tier0

/-- A row of the XenForo status query (IXFStatusQuery). -/
structure XFStatusQuery where
  thread_id : Nat
  node_id : Nat
  title : String
  phrase_text : Option String
deriving Repr, DecidableEq

/-- A parsed thread (IXFParsedThreadData). -/
structure IXFParsedThreadData where
  thread_id : Nat
  node_id : Nat
  title : String
  phrase_text : Option String
  gen : List String
  tier : List String
  stage : String
  progress : String
deriving Repr, DecidableEq

/-- Result of classifying one thread: pushed to the output, skipped by a
continue, or a thrown TypeError that aborts the whole parse. -/
inductive ClassifyOutcome where
  | ok (r : IXFParsedThreadData)
  | skip
  | error
deriving Repr, DecidableEq

/-- The generation/tier presets taken from the tag analysis (empty unless
the tag was an OM, past-gen or RBY-other prefix). -/
def tagPresets (tag : Option String) : List String × List String :=
  match tagAnalysis tag with
  | .fall g t => (g, t)
  | _ => ([], [])

/-- Classification of one thread by parseCCStage (part_005 lines 229-499,
the diagnostic posts to the fixed dev channel omitted). -/
def classifyThread (t : XFStatusQuery) : ClassifyOutcome :=
  match stageProgressOf t.title t.phrase_text with
  | none => .skip
  | some (stage, progress) =>
    let pre := tagPresets t.phrase_text
    match resolveGen t.title t.node_id pre.1 with
    | .error => .error
    | .skip => .skip
    | .ok gen =>
      match resolveTier t.node_id pre.2 with
      | none => .error
      | some tier =>
        .ok ⟨t.thread_id, t.node_id, t.title, t.phrase_text, gen, tier, stage, progress⟩

/-- parseCCStage over the polled thread list: skipped threads are dropped,
and a TypeError (none) discards the whole result. -/
def parseCCStage : List XFStatusQuery → Option (List IXFParsedThreadData)
  | [] => some []
  | t :: rest =>
    match classifyThread t with
    | .error => none
    | .skip => parseCCStage rest
    | .ok r => (parseCCStage rest).map (fun l => r :: l)

/-! ## The status cache and the reconciliation cycle -/

/-- A cached row of chatot.ccstatus (thread_id, stage, progress). -/
structure CCCache where
  thread_id : Nat
  stage : String
  progress : String
deriving Repr, DecidableEq

/-- A row of chatot.ccprefs resolved for alerting. -/
structure AlertChan where
  serverid : String
  channelid : String
  tier : String
  gen : String
  role : Option String
deriving Repr, DecidableEq

/-- The ICCData loaded at the start of a cycle: cached threads and the
alert-channel subscriptions. -/
structure ICCData where
  threads : List CCCache
  alertchans : List AlertChan
deriving Repr, DecidableEq

/-- Modelled from the spec: updateCCCache (ccQueries.js) with the remove
flag is not in the sources; section 4.3 specifies delete keyed by
thread_id. -/
def deleteCC (id : Nat) (cache : List CCCache) : List CCCache :=
  cache.filter (fun e => !(e.thread_id == id))

/-- Modelled from the spec: updateCCCache (ccQueries.js) without the
remove flag is not in the sources; section 4.3 specifies an idempotent
last-write-wins upsert keyed by thread_id. -/
def upsertCC (n : IXFParsedThreadData) (cache : List CCCache) : List CCCache :=
  if cache.any (fun e => e.thread_id == n.thread_id) then
    cache.map (fun e =>
      if e.thread_id == n.thread_id then ⟨n.thread_id, n.stage, n.progress⟩ else e)
  else cache ++ [⟨n.thread_id, n.stage, n.progress⟩]

/-- uncacheRemovedThreads (part_005 lines 106-118): delete every cached
entry whose thread id is no longer among the polled thread ids. -/
def evictCache (currentData : List XFStatusQuery) (cache : List CCCache) : List CCCache :=
  let currentThreadIDs := currentData.map (fun d => d.thread_id)
  let cachedRemoved := cache.filter (fun o => !(currentThreadIDs.contains o.thread_id))
  cachedRemoved.foldl (fun acc o => deleteCC o.thread_id acc) cache

/-! ## alertCCStatus (part_004 lines 331-383; part_005 lines 127-216 is
the same function with diagnostic posts to a fixed dev channel added and
the suppressing return of the not-QC-or-Done branch replaced by a
placeholder diagnostic message — the diagnostic variant is excluded from
the contract, spec section 9).  Channel fetch is an external collaborator
and is modelled as always succeeding with a text channel. -/

/-- The subscription rows matching a thread: tiers compared lower-cased,
generations as stored. -/
def alertChansOf (newData : IXFParsedThreadData) (oldData : ICCData) : List AlertChan :=
  let newTierLower := newData.tier.map jsToLower
  oldData.alertchans.filter (fun c => newTierLower.contains c.tier && newData.gen.contains c.gen)

/-- The thread URL fragment of the alert messages. -/
def threadUrl (id : Nat) : String :=
  "<https://www.smogon.com/forums/threads/" ++ toString id ++ "/>"

/-- String.prototype.startsWith. -/
def jsStarts (s pre : String) : Bool := leadsWith pre.data s.data

/-- The message selection of alertCCStatus; none models the suppressing
return (no message for this thread at all). -/
def alertMsgFor (newData : IXFParsedThreadData) : Option String :=
  if newData.stage == "GP" && jsStarts newData.progress "0" then
    some ("Update to thread " ++ threadUrl newData.thread_id ++ "\nStatus: **Ready for GP**")
  else if newData.stage == "QC" && jsStarts newData.progress "0" then
    some ("Update to thread " ++ threadUrl newData.thread_id ++ "\nStatus: **Ready for QC**")
  else if !(newData.stage == "QC" || newData.stage == "Done") then none
  else
    some ("Update to thread " ++ threadUrl newData.thread_id ++
      "\nStatus: **" ++ newData.stage ++ " " ++ newData.progress ++ "**")

/-- Role-ping prefix: prepended when the subscription row has a truthy
role. -/
def withRole (c : AlertChan) (msg : String) : String :=
  match c.role with
  | some r => if r == "" then msg else "<@&" ++ r ++ "> " ++ msg
  | none => msg

/-- The channel loop of alertCCStatus: each channel id is processed at
most once; the suppressing return aborts the remaining channels.  Returns
the (channelid, message) pairs sent. -/
def alertLoop (newData : IXFParsedThreadData) :
    List AlertChan → List String → List (String × String)
  | [], _ => []
  | c :: rest, processedIDs =>
    if processedIDs.contains c.channelid then alertLoop newData rest processedIDs
    else
      match alertMsgFor newData with
      | none => []
      | some m => (c.channelid, withRole c m) :: alertLoop newData rest (c.channelid :: processedIDs)

/-- alertCCStatus: resolve the subscriber channels and post. -/
def alertCCStatus (newData : IXFParsedThreadData) (oldData : ICCData) :
    List (String × String) :=
  let alertChans := alertChansOf newData oldData
  if alertChans.isEmpty then [] else alertLoop newData alertChans []

/-! ## checkCCUpdates (part_005 lines 16-98, diagnostic posts omitted) -/

/-- The change test of the cycle loop (part_005 line 80-83): new thread or
different stage/progress relative to the cache loaded at the start of the
cycle. -/
def isChanged (oldData : ICCData) (n : IXFParsedThreadData) : Bool :=
  match oldData.threads.filter (fun othread => othread.thread_id == n.thread_id) with
  | [] => true
  | o :: _ => !(n.stage == o.stage) || !(n.progress == o.progress)

/-- One iteration of the cycle loop over a parsed thread: alert and upsert
when changed, otherwise continue. -/
def cycleStep (oldData : ICCData) (st : List CCCache × List (String × String))
    (n : IXFParsedThreadData) : List CCCache × List (String × String) :=
  if isChanged oldData n then (upsertCC n st.1, st.2 ++ alertCCStatus n oldData)
  else st

/-- The cycle loop over all parsed threads, starting from the persisted
cache. -/
def processParsed (oldData : ICCData) (parsed : List IXFParsedThreadData)
    (cache : List CCCache) : List CCCache × List (String × String) :=
  parsed.foldl (cycleStep oldData) (cache, [])

/-- One reconciliation cycle (checkCCUpdates): empty snapshot runs only
eviction; otherwise parse, loop, evict.  none models the cycle aborting on
a classification TypeError. -/
def runCycle (snapshot : List XFStatusQuery) (oldData : ICCData) :
    Option (List CCCache × List (String × String)) :=
  if snapshot.isEmpty then some (evictCache snapshot oldData.threads, [])
  else
    match parseCCStage snapshot with
    | none => none
    | some parsed =>
      let st := processParsed oldData parsed oldData.threads
      some (evictCache snapshot st.1, st.2)

/-! ## The legacy classifier of findNewThreads (src/src/helpers/cnc.ts)

Its regex (QC|GP)?:?\s?(\d\s?\/\s?\d) (flags gi) has an optional tag
group, and the code applies it to a hard-coded sample title instead of the
thread's own title (the commented-out line above it uses thread.title). -/

/-- :?\s? then the numeric tail, with the greedy preference order
colon-then-space, colon, space, bare. -/
def colonSpaceNum (cs : List Char) (j : Nat) : Option (Nat × String) :=
  let spaceNum := fun (k : Nat) =>
    (match cs.get? k with
     | some c => if jsSpace c then numTail cs (k + 1) else none
     | none => none).orElse (fun _ => numTail cs k)
  (match cs.get? j with
   | some c => if c == ':' then spaceNum (j + 1) else none
   | none => none).orElse (fun _ => spaceNum j)

/-- One attempt of (QC|GP)?:?\s?(\d\s?\/\s?\d) at position i: the optional
group is greedy, so the tagged paths are preferred. -/
def cncMatchAt (cs : List Char) (i : Nat) : Option (Nat × Prog) :=
  match (ciTake cs i "QC".data).orElse (fun _ => ciTake cs i "GP".data) with
  | some tag =>
    match colonSpaceNum cs (i + 2) with
    | some (e, g2) => some (e, ⟨sliceStr cs i e, some (String.mk tag), g2⟩)
    | none =>
      match colonSpaceNum cs i with
      | some (e, g2) => some (e, ⟨sliceStr cs i e, none, g2⟩)
      | none => none
  | none =>
    match colonSpaceNum cs i with
    | some (e, g2) => some (e, ⟨sliceStr cs i e, none, g2⟩)
    | none => none

/-- matchAll scan for the legacy regex (every match consumes at least
three characters). -/
def cncMatchAllAux (cs : List Char) : Nat → Nat → List Prog
  | 0, _ => []
  | fuel + 1, i =>
    if cs.length < i then []
    else
      match cncMatchAt cs i with
      | some (e, p) => p :: cncMatchAllAux cs fuel e
      | none => cncMatchAllAux cs fuel (i + 1)

/-- All matches of the legacy regex. -/
def cncMatchAll (cs : List Char) : List Prog := cncMatchAllAux cs (cs.length + 1) 0

/-- The hard-coded string cnc.ts matches against (cnc.ts lines 92 and
116). -/
def sampleTitle : String := "SubRoost Zapdos [QC: 2/2] [GP:0/1]"

/-- The untagged-thread stage/progress classification of findNewThreads
(cnc.ts lines 88-132): the numeric scan runs over sampleTitle, only the
done test reads the thread's own title.  The backfill block (lines
114-132) is included; on this path it never changes a non-empty
progress. -/
def cncStageProgress (title : String) : String × String :=
  let progressions := cncMatchAll sampleTitle.data
  let sp : String × String :=
    if containsDone title then ("Done", "")
    else if progressions.any (fun p => progHasTag p "gp") then
      match progressions.filter (fun p => progHasTag p "gp") with
      | p :: _ => ("GP", p.g2)
      | [] => ("GP", "")
    else if progressions.any (fun p => progHasTag p "qc") then
      match progressions.filter (fun p => progHasTag p "qc") with
      | p :: _ => ("QC", p.g2)
      | [] => ("QC", "")
    else ("WIP", "")
  if sp.2 == "" then
    if sp.1 == "GP" || sp.1 == "QC" then
      match progressions.filter (fun p => progHasTag p (jsToLower sp.1)) with
      | p :: _ => (sp.1, p.g2)
      | [] =>
        match progressions.filter (fun p => p.g1 == none && !(p.g2 == "")) with
        | p :: _ => (sp.1, p.g2)
        | [] => sp
    else sp
  else sp

/-! ## The full findNewThreads pass (cnc.ts lines 8-221)

The legacy cycle classifies each thread inline, checks the cached row,
alerts and writes — but on an unchanged thread it executes return, not
continue, so the remaining snapshot threads of that pass are never
processed; and its node-770 generation branch (line 177) tests only
matchArr !== null, without part_005's matchArr[0] !== '' guard, so an
empty regex match reaches (matchArr[3] || matchArr[4]).toLowerCase() with
both groups undefined — a TypeError. -/

/-- The untagged-branch stage/progress of findNewThreads before the
backfill block (cnc.ts lines 88-111): the numeric scan runs over
sampleTitle, only the done test reads the thread's own title. -/
def cncTitleStage (title : String) : String × String :=
  let progressions := cncMatchAll sampleTitle.data
  if containsDone title then ("Done", "")
  else if progressions.any (fun p => progHasTag p "gp") then
    match progressions.filter (fun p => progHasTag p "gp") with
    | p :: _ => ("GP", p.g2)
    | [] => ("GP", "")
  else if progressions.any (fun p => progHasTag p "qc") then
    match progressions.filter (fun p => progHasTag p "qc") with
    | p :: _ => ("QC", p.g2)
    | [] => ("QC", "")
  else ("WIP", "")

/-- The tag chain of findNewThreads (cnc.ts lines 54-111): gen and tier
are single strings, the title heuristic lives in the final else branch,
and none models the continue on Resource/Announcement. -/
def cncTagSP (t : XFStatusQuery) : Option (String × String × String × String) :=
  match t.phrase_text with
  | some "WIP" => some ("WIP", "", "", "")
  | some "Quality Control" => some ("QC", "", "", "")
  | some "Copyediting" => some ("GP", "", "", "")
  | some "HTML" => some ("HTML", "", "", "")
  | some "Done" => some ("Done", "", "", "")
  | some "Resource" => none
  | some "Announcement" => none
  | some tag =>
    if omTagList.contains tag then some ("", "", "", tag)
    else if pastGenTagList.contains tag then
      match genTagDigit tag with
      | some d => some ("", "", String.mk [d], "")
      | none => some ("", "", "", "")
    else if rbyOtherTagList.contains tag then some ("", "", "", tag)
    else
      let sp := cncTitleStage t.title
      some (sp.1, sp.2, "", "")
  | none =>
    let sp := cncTitleStage t.title
    some (sp.1, sp.2, "", "")

/-- The backfill block of findNewThreads (cnc.ts lines 114-132), again
over the sampleTitle matches.  The final untagged-match assignment has no
length guard in the source; it is unreachable because the sample's stage
filter already matches, and is modelled as leaving the progress
unchanged. -/
def cncBackfillOnly (stage progress : String) : String :=
  if progress == "" then
    let progressions := cncMatchAll sampleTitle.data
    if stage == "GP" || stage == "QC" then
      match progressions.filter (fun p => progHasTag p (jsToLower stage)) with
      | p :: _ => p.g2
      | [] =>
        match progressions.filter (fun p => p.g1 == none && !(p.g2 == "")) with
        | p :: _ => p.g2
        | [] => progress
    else progress
  else progress

/-- Result of the legacy gen resolution; error is the TypeError. -/
inductive CncGenRes where
  | ok (gen : String)
  | error
deriving Repr, DecidableEq

/-- Generation resolution of findNewThreads (cnc.ts lines 169-188): the
node-770 branch tests only matchArr !== null — an empty match passes and
both groups are undefined, so the genDesr computation throws; with no
match at all the gen simply stays empty (the give-up comment has no code
under it).  Other nodes read the last element of the ccSubObj entry, a
TypeError when the node id is not a key. -/
def cncResolveGen (title : String) (node : Nat) (gen0 : String) : CncGenRes :=
  if gen0 == "" then
    if node == 770 then
      match genMatch title with
      | none => .ok gen0
      | some (_, _, g) =>
        match g.g3 with
        | some d => .ok ((gensLookup (jsToLower (String.mk [d]))).getD "undefined")
        | none =>
          match g.g4 with
          | some s => .ok ((gensLookup (jsToLower s)).getD "undefined")
          | none => .error
    else
      match ccSubObjLookup (toString node) with
      | none => .error
      | some entry => .ok ((entry.gens.getLast?).getD "undefined")
  else .ok gen0

/-- Tier resolution of findNewThreads (cnc.ts lines 191-194): last element
of the ccSubObj entry; none models the TypeError of an unknown node. -/
def cncResolveTier (node : Nat) (tier0 : String) : Option String :=
  if tier0 == "" then
    (ccSubObjLookup (toString node)).map (fun e => (e.tiers.getLast?).getD "undefined")
  else some tier0

/-- The per-thread data findNewThreads passes to its alertCCStatus. -/
structure CncParsed where
  thread_id : Nat
  stage : String
  progress : String
  gen : String
  tier : String
deriving Repr, DecidableEq

/-- Classification outcome of one findNewThreads iteration. -/
inductive CncOutcome where
  | ok (r : CncParsed)
  | skip
  | error
deriving Repr, DecidableEq

/-- One thread's classification inside findNewThreads: tag chain, backfill,
gen, tier (cnc.ts lines 46-194). -/
def cncClassify (t : XFStatusQuery) : CncOutcome :=
  match cncTagSP t with
  | none => .skip
  | some (stage, progress, gen0, tier0) =>
    let progress := cncBackfillOnly stage progress
    match cncResolveGen t.title t.node_id gen0 with
    | .error => .error
    | .ok gen =>
      match cncResolveTier t.node_id tier0 with
      | none => .error
      | some tier => .ok ⟨t.thread_id, stage, progress, gen, tier⟩

/-- The upsert of cnc.ts line 215 (INSERT ... ON CONFLICT DO UPDATE),
keyed by thread_id. -/
def cncUpsert (r : CncParsed) (cache : List CCCache) : List CCCache :=
  if cache.any (fun e => e.thread_id == r.thread_id) then
    cache.map (fun e =>
      if e.thread_id == r.thread_id then ⟨r.thread_id, r.stage, r.progress⟩ else e)
  else cache ++ [⟨r.thread_id, r.stage, r.progress⟩]

/-- The findNewThreads loop over the polled threads (cnc.ts lines
46-219): classify, read the cached row, alert and write on a change — and
return from the whole function on an unchanged thread, dropping every
remaining thread of the pass.  The alertCCStatus call is modelled by
recording its argument (channel lookup and delivery are external); Done
rows are deleted, others upserted; none models a thrown TypeError
discarding the pass. -/
def cncProcessThreads (cache : List CCCache) :
    List XFStatusQuery → Option (List CCCache × List CncParsed)
  | [] => some (cache, [])
  | t :: rest =>
    match cncClassify t with
    | .error => none
    | .skip => cncProcessThreads cache rest
    | .ok r =>
      let changed :=
        match cache.filter (fun o => o.thread_id == r.thread_id) with
        | [] => true
        | o :: _ => !(r.stage == o.stage) || !(r.progress == o.progress)
      if changed then
        let cache2 :=
          if r.stage == "Done" then deleteCC r.thread_id cache else cncUpsert r cache
        (cncProcessThreads cache2 rest).map (fun cr => (cr.1, r :: cr.2))
      else some (cache, [])

/-! ## Bridge lemmas -/

/-- Every successfully classified thread carries exactly the stage and
progress computed by the tag/title/backfill pipeline. -/
theorem classify_ok_stage_progress (t : XFStatusQuery) (r : IXFParsedThreadData)
    (h : classifyThread t = ClassifyOutcome.ok r) :
    stageProgressOf t.title t.phrase_text = some (r.stage, r.progress) := by
  unfold classifyThread at h
  cases hsp : stageProgressOf t.title t.phrase_text with
  | none => rw [hsp] at h; exact absurd h (by simp)
  | some sp =>
    obtain ⟨s, p⟩ := sp
    rw [hsp] at h
    dsimp only at h
    cases hg : resolveGen t.title t.node_id (tagPresets t.phrase_text).1 with
    | error => rw [hg] at h; exact absurd h (by simp)
    | skip => rw [hg] at h; exact absurd h (by simp)
    | ok gen =>
      rw [hg] at h
      dsimp only at h
      cases ht : resolveTier t.node_id (tagPresets t.phrase_text).2 with
      | none => rw [ht] at h; exact absurd h (by simp)
      | some tier =>
        rw [ht] at h
        dsimp only at h
        cases h
        rfl

/-! ## C3: the done keyword versus the zero-match branch -/

/-- C3 counterexample: an untagged thread whose title is exactly the word
done contains the word done and no QC/GP numeric pattern, yet parseCCStage
classifies it WIP, not Done — the zero-match test precedes the done
test. -/
theorem c3_counterexample :
    containsDone "done" = true ∧
    matchAllProg "done".data = [] ∧
    classifyThread ⟨1, 758, "done", none⟩ =
      ClassifyOutcome.ok ⟨1, 758, "done", none, ["9"], ["ou"], "WIP", ""⟩ ∧
    ("WIP" : String) ≠ "Done" := by
  refine ⟨by decide, by decide, by decide, by decide⟩

/-- C3 amended: for a thread whose prefix tag does not determine the
stage, a title with at least one QC/GP numeric match that contains the
word done (any case) is classified Done with empty progress, while a
title with zero numeric matches is classified WIP with empty progress
regardless of whether it contains done — the zero-match branch fires
first. -/
theorem c3_amended (t : XFStatusQuery) (g0 t0 : List String)
    (hTag : tagAnalysis t.phrase_text = TagOutcome.fall g0 t0) :
    (containsDone t.title = true → matchAllProg t.title.data ≠ [] →
      stageProgressOf t.title t.phrase_text = some ("Done", "") ∧
      ∀ r, classifyThread t = ClassifyOutcome.ok r → r.stage = "Done" ∧ r.progress = "") ∧
    (matchAllProg t.title.data = [] →
      stageProgressOf t.title t.phrase_text = some ("WIP", "") ∧
      ∀ r, classifyThread t = ClassifyOutcome.ok r → r.stage = "WIP" ∧ r.progress = "") := by
  have key : ∀ s pg, titleStage t.title = some (s, pg) →
      backfillProgress t.title s pg = pg →
      stageProgressOf t.title t.phrase_text = some (s, pg) ∧
      ∀ r, classifyThread t = ClassifyOutcome.ok r → r.stage = s ∧ r.progress = pg := by
    intro s pg hts hbf
    have hsp : stageProgressOf t.title t.phrase_text = some (s, pg) := by
      simp only [stageProgressOf, hTag, hts, hbf]
    refine ⟨hsp, fun r hr => ?_⟩
    have hb := classify_ok_stage_progress t r hr
    rw [hsp] at hb
    have hpair : (r.stage, r.progress) = (s, pg) := by injection hb.symm
    exact ⟨congrArg Prod.fst hpair, congrArg Prod.snd hpair⟩
  constructor
  · intro hDone hMatch
    have h1 : (matchAllProg t.title.data).isEmpty = false := by
      cases hm : matchAllProg t.title.data with
      | nil => exact absurd hm hMatch
      | cons a l => rfl
    refine key _ _ ?_ (by rfl)
    simp only [titleStage, h1, hDone, Bool.false_eq_true, if_false, if_true]
  · intro hM
    refine key _ _ ?_ (by rfl)
    simp [titleStage, hM]

/-- C3 amended witness: a done title with a numeric match classifies
Done, and a pattern-free done title classifies WIP. -/
theorem c3_amended_witness :
    stageProgressOf "done [QC 0/1]" none = some ("Done", "") ∧
    stageProgressOf "done" none = some ("WIP", "") :=
  ⟨((c3_amended ⟨1, 758, "done [QC 0/1]", none⟩ [] [] rfl).1 (by decide) (by decide)).1,
   ((c3_amended ⟨1, 758, "done", none⟩ [] [] rfl).2 (by decide)).1⟩

/-! ## C1: two-match titles -/

/-- C1 counterexample: the source compares the components of the
space-stripped progress strings, not the digit characters.  In the title
QC 1(tab)/1 GP 0/1 the two digits of the QC match are both 1 (so the claim
demands stage GP with progress 0/1), but the tab survives the
space-stripping, the component comparison says incomplete, and the code
yields stage QC with progress 1(tab)/1. -/
theorem c1_counterexample :
    matchAllProg "QC 1\t/1 GP 0/1".data =
      [⟨"QC 1\t/1", some "QC", "1\t/1"⟩, ⟨"GP 0/1", some "GP", "0/1"⟩] ∧
    "1\t/1".front = '1' ∧ "1\t/1".back = '1' ∧
    ¬ ("0/1".front = "0/1".back) ∧
    containsDone "QC 1\t/1 GP 0/1" = false ∧
    stageProgressOf "QC 1\t/1 GP 0/1" none = some ("QC", "1\t/1") ∧
    ¬ (stageProgressOf "QC 1\t/1 GP 0/1" none = some ("GP", "0/1")) := by
  refine ⟨by decide, by decide, by decide, by decide, by decide, by decide, by decide⟩

/-- Backfilling cannot change the progress taken from the first
QC-tagged match. -/
theorem backfill_first_tagged (title : String) (stage : String) (p : Prog) (pr : List Prog)
    (hstage : stage = "QC" ∨ stage = "GP")
    (hf : (matchAllProg title.data).filter (fun q => progHasTag q (jsToLower stage)) = p :: pr) :
    backfillProgress title stage (stripSpaces p.g2) = stripSpaces p.g2 := by
  unfold backfillProgress
  cases he : stripSpaces p.g2 == "" with
  | false => simp only [he, Bool.false_eq_true, if_false]
  | true =>
    simp only [he, if_true]
    rcases hstage with h | h <;> subst h <;>
      simp only [hf, show jsToLower "QC" = "qc" from rfl, show jsToLower "GP" = "gp" from rfl] at hf ⊢ <;>
      simp [hf]

/-- C1 amended: in a title with two or more numeric matches, both a QC and
a GP match present and no done keyword, the classifier compares the two
components of each space-stripped progress string: unequal QC components
give stage QC with the QC progress; equal QC components and unequal GP
components give stage GP with the GP progress; both equal give Done.  (On
titles whose numeric separators are spaces or absent, the components are
exactly the digit characters of the claim.) -/
theorem c1_amended (t : XFStatusQuery) (g0 t0 : List String) (qc gp : Prog)
    (qcr gpr : List Prog)
    (hTag : tagAnalysis t.phrase_text = TagOutcome.fall g0 t0)
    (hDone : containsDone t.title = false)
    (hLen : 2 ≤ (matchAllProg t.title.data).length)
    (hQC : (matchAllProg t.title.data).filter (fun p => progHasTag p "qc") = qc :: qcr)
    (hGP : (matchAllProg t.title.data).filter (fun p => progHasTag p "gp") = gp :: gpr) :
    (progSame (stripSpaces qc.g2) = false →
      stageProgressOf t.title t.phrase_text = some ("QC", stripSpaces qc.g2) ∧
      ∀ r, classifyThread t = ClassifyOutcome.ok r →
        r.stage = "QC" ∧ r.progress = stripSpaces qc.g2) ∧
    (progSame (stripSpaces qc.g2) = true → progSame (stripSpaces gp.g2) = false →
      stageProgressOf t.title t.phrase_text = some ("GP", stripSpaces gp.g2) ∧
      ∀ r, classifyThread t = ClassifyOutcome.ok r →
        r.stage = "GP" ∧ r.progress = stripSpaces gp.g2) ∧
    (progSame (stripSpaces qc.g2) = true → progSame (stripSpaces gp.g2) = true →
      stageProgressOf t.title t.phrase_text = some ("Done", "") ∧
      ∀ r, classifyThread t = ClassifyOutcome.ok r →
        r.stage = "Done" ∧ r.progress = "") := by
  have h1 : (matchAllProg t.title.data).isEmpty = false := by
    cases hm : matchAllProg t.title.data with
    | nil => rw [hm] at hLen; exact absurd hLen (by decide)
    | cons a l => rfl
  have key : ∀ s pg, titleStage t.title = some (s, pg) →
      backfillProgress t.title s pg = pg →
      stageProgressOf t.title t.phrase_text = some (s, pg) ∧
      ∀ r, classifyThread t = ClassifyOutcome.ok r → r.stage = s ∧ r.progress = pg := by
    intro s pg hts hbf
    have hsp : stageProgressOf t.title t.phrase_text = some (s, pg) := by
      simp only [stageProgressOf, hTag, hts, hbf]
    refine ⟨hsp, fun r hr => ?_⟩
    have hb := classify_ok_stage_progress t r hr
    rw [hsp] at hb
    have hpair : (r.stage, r.progress) = (s, pg) := by injection hb.symm
    exact ⟨congrArg Prod.fst hpair, congrArg Prod.snd hpair⟩
  refine ⟨fun hq => ?_, fun hq hg => ?_, fun hq hg => ?_⟩
  · refine key _ _ ?_ (backfill_first_tagged t.title "QC" qc qcr (Or.inl rfl) (by simpa using hQC))
    simp only [titleStage, h1, hDone, Bool.false_eq_true, if_false, if_pos hLen, hQC, hGP]
    simp only [hq, Bool.not_false, if_true]
  · refine key _ _ ?_ (backfill_first_tagged t.title "GP" gp gpr (Or.inr rfl) (by simpa using hGP))
    simp only [titleStage, h1, hDone, Bool.false_eq_true, if_false, if_pos hLen, hQC, hGP]
    simp only [hq, hg, Bool.not_true, Bool.true_and, if_false]
    rfl
  · refine key _ _ ?_ (by rfl)
    simp only [titleStage, h1, hDone, Bool.false_eq_true, if_false, if_pos hLen, hQC, hGP]
    simp only [hq, hg, Bool.not_true, Bool.true_and, if_false, if_true]
    rfl

/-- C1 amended witness at the spec's own example title. -/
theorem c1_amended_witness :
    progSame (stripSpaces "1/2") = false ∧
    stageProgressOf "[QC 1/2] [GP 0/1]" none = some ("QC", stripSpaces "1/2") :=
  ⟨by decide,
    ((c1_amended ⟨1, 758, "[QC 1/2] [GP 0/1]", none⟩ [] [] ⟨"QC 1/2", some "QC", "1/2"⟩
        ⟨"GP 0/1", some "GP", "0/1"⟩ [] [] rfl (by decide) (by decide) (by decide)
        (by decide)).1 (by decide)).1⟩

/-! ## C5: single QC match -/

/-- C5 counterexample: in the title QC 1(tab)/1 the lone QC match has two
equal digits, so the claim demands stage GP with progress 0/?; the code
compares the space-stripped components (the tab survives both the
stripping — only spaces are removed — and the comparison) and yields
stage QC with progress 1(tab)/1. -/
theorem c5_counterexample :
    matchAllProg "QC 1\t/1".data = [⟨"QC 1\t/1", some "QC", "1\t/1"⟩] ∧
    "1\t/1".front = '1' ∧ "1\t/1".back = '1' ∧
    stripSpaces "1\t/1" = "1\t/1" ∧
    containsDone "QC 1\t/1" = false ∧
    stageProgressOf "QC 1\t/1" none = some ("QC", "1\t/1") ∧
    ¬ (stageProgressOf "QC 1\t/1" none = some ("GP", "0/?")) := by
  refine ⟨by decide, by decide, by decide, by decide, by decide, by decide, by decide⟩

/-- C5 amended: with exactly one numeric match, tagged QC and not GP, the
classifier compares the two components of the space-stripped progress: if
they are equal the stage becomes GP with progress 0/?, otherwise stage QC
with the space-stripped progress (only spaces are removed, so other
whitespace matched by the pattern survives). -/
theorem c5_amended (t : XFStatusQuery) (g0 t0 : List String) (p : Prog)
    (hTag : tagAnalysis t.phrase_text = TagOutcome.fall g0 t0)
    (hDone : containsDone t.title = false)
    (hM : matchAllProg t.title.data = [p])
    (hGP : progHasTag p "gp" = false)
    (hQC : progHasTag p "qc" = true) :
    (progSame (stripSpaces p.g2) = true →
      stageProgressOf t.title t.phrase_text = some ("GP", "0/?") ∧
      ∀ r, classifyThread t = ClassifyOutcome.ok r →
        r.stage = "GP" ∧ r.progress = "0/?") ∧
    (progSame (stripSpaces p.g2) = false →
      stageProgressOf t.title t.phrase_text = some ("QC", stripSpaces p.g2) ∧
      ∀ r, classifyThread t = ClassifyOutcome.ok r →
        r.stage = "QC" ∧ r.progress = stripSpaces p.g2) := by
  have key : ∀ s pg, titleStage t.title = some (s, pg) →
      backfillProgress t.title s pg = pg →
      stageProgressOf t.title t.phrase_text = some (s, pg) ∧
      ∀ r, classifyThread t = ClassifyOutcome.ok r → r.stage = s ∧ r.progress = pg := by
    intro s pg hts hbf
    have hsp : stageProgressOf t.title t.phrase_text = some (s, pg) := by
      simp only [stageProgressOf, hTag, hts, hbf]
    refine ⟨hsp, fun r hr => ?_⟩
    have hb := classify_ok_stage_progress t r hr
    rw [hsp] at hb
    have hpair : (r.stage, r.progress) = (s, pg) := by injection hb.symm
    exact ⟨congrArg Prod.fst hpair, congrArg Prod.snd hpair⟩
  have hfq : (matchAllProg t.title.data).filter (fun q => progHasTag q "qc") = [p] := by
    rw [hM]; simp [List.filter, hQC]
  refine ⟨fun hps => ?_, fun hps => ?_⟩
  · refine key _ _ ?_ (by rfl)
    simp only [titleStage, hM, hDone, Bool.false_eq_true, if_false]
    simp only [List.isEmpty_cons, List.length_cons, List.length_nil, List.any_cons,
      List.any_nil, hGP, hQC, Bool.or_false, Bool.false_eq_true, if_false,
      show ¬ (2 ≤ 0 + 1) from by decide, List.filter, hps, if_true]
  · have hbf := backfill_first_tagged t.title "QC" p [] (Or.inl rfl) (by simpa using hfq)
    refine key _ _ ?_ hbf
    simp only [titleStage, hM, hDone, Bool.false_eq_true, if_false]
    simp only [List.isEmpty_cons, List.length_cons, List.length_nil, List.any_cons,
      List.any_nil, hGP, hQC, Bool.or_false, Bool.false_eq_true, if_false,
      show ¬ (2 ≤ 0 + 1) from by decide, List.filter, hps, if_true]

/-- C5 amended witness: one complete QC match resets the stage to GP with
progress 0/?. -/
theorem c5_amended_witness :
    progSame (stripSpaces "2/2") = true ∧
    stageProgressOf "Zapdos [QC: 2/2]" none = some ("GP", "0/?") :=
  ⟨by decide,
    ((c5_amended ⟨1, 758, "Zapdos [QC: 2/2]", none⟩ [] [] ⟨"QC: 2/2", some "QC", "2/2"⟩
        rfl (by decide) (by decide) (by decide) (by decide)).1 (by decide)).1⟩

/-! ## C4: zero-match titles and the legacy hard-coded scan -/

/-- C4: the current classifier (parseCCStage) scans the thread's own
title: an untagged thread whose title has no QC/GP numeric pattern and no
done keyword is classified WIP with empty progress.  The legacy
findNewThreads classifier (cnc.ts line 92) instead scans the hard-coded
sample title, whose GP 0/1 match makes it classify the same thread GP with
progress 0/1 — the commented-out line above it shows thread.title was
intended. -/
theorem c4_wip_vs_cnc_sample :
    matchAllProg "Garchomp".data = [] ∧
    containsDone "Garchomp" = false ∧
    stageProgressOf "Garchomp" none = some ("WIP", "") ∧
    classifyThread ⟨1, 758, "Garchomp", none⟩ =
      ClassifyOutcome.ok ⟨1, 758, "Garchomp", none, ["9"], ["ou"], "WIP", ""⟩ ∧
    cncMatchAll sampleTitle.data =
      [⟨"QC: 2/2", some "QC", "2/2"⟩, ⟨"GP:0/1", some "GP", "0/1"⟩] ∧
    cncStageProgress "Garchomp" = ("GP", "0/1") := by
  refine ⟨by decide, by decide, by decide, by decide, by decide, by decide⟩

/-! ## C6: the notification message rule -/

/-- C6 counterexample: a transition to GP with progress 1/2 resolves a
subscriber channel, but the message selection suppresses it (the
not-QC-or-Done branch returns), so no generic GP progress message is
sent. -/
theorem c6_counterexample :
    alertChansOf ⟨100, 758, "t", none, ["9"], ["ou"], "GP", "1/2"⟩
        ⟨[], [⟨"s", "c1", "ou", "9", none⟩]⟩ = [⟨"s", "c1", "ou", "9", none⟩] ∧
    alertMsgFor ⟨100, 758, "t", none, ["9"], ["ou"], "GP", "1/2"⟩ = none ∧
    alertCCStatus ⟨100, 758, "t", none, ["9"], ["ou"], "GP", "1/2"⟩
        ⟨[], [⟨"s", "c1", "ou", "9", none⟩]⟩ = [] := by
  refine ⟨by decide, by decide, by decide⟩

/-- C6 amended: transitions to GP or QC with progress starting 0 produce
the Ready-for message; QC with other progress and Done produce the
stage-plus-progress message; GP with progress not starting 0, and every
stage other than QC, GP and Done, produce no message at all; and the cycle
step upserts the cache entry of a changed thread regardless of what the
message selection did. -/
theorem c6_amended (n : IXFParsedThreadData) (old : ICCData) :
    (n.stage = "GP" → jsStarts n.progress "0" = true →
      alertMsgFor n = some ("Update to thread " ++ threadUrl n.thread_id ++
        "\nStatus: **Ready for GP**")) ∧
    (n.stage = "QC" → jsStarts n.progress "0" = true →
      alertMsgFor n = some ("Update to thread " ++ threadUrl n.thread_id ++
        "\nStatus: **Ready for QC**")) ∧
    (n.stage = "QC" → jsStarts n.progress "0" = false →
      alertMsgFor n = some ("Update to thread " ++ threadUrl n.thread_id ++
        "\nStatus: **" ++ n.stage ++ " " ++ n.progress ++ "**")) ∧
    (n.stage = "Done" →
      alertMsgFor n = some ("Update to thread " ++ threadUrl n.thread_id ++
        "\nStatus: **" ++ n.stage ++ " " ++ n.progress ++ "**")) ∧
    (n.stage = "GP" → jsStarts n.progress "0" = false →
      alertMsgFor n = none ∧ alertCCStatus n old = []) ∧
    (¬ (n.stage = "QC" ∨ n.stage = "GP" ∨ n.stage = "Done") →
      alertMsgFor n = none ∧ alertCCStatus n old = []) ∧
    (∀ cache msgs, isChanged old n = true →
      cycleStep old (cache, msgs) n = (upsertCC n cache, msgs ++ alertCCStatus n old)) := by
  have hsupp : alertMsgFor n = none → alertCCStatus n old = [] := by
    intro hnone
    unfold alertCCStatus
    cases he : (alertChansOf n old).isEmpty with
    | true => simp only [he, if_true]
    | false =>
      simp only [he, Bool.false_eq_true, if_false]
      cases hch : alertChansOf n old with
      | nil => rfl
      | cons c rest =>
        simp only [alertLoop, List.contains_nil, Bool.false_eq_true, if_false, hnone]
  refine ⟨fun h1 h2 => ?_, fun h1 h2 => ?_, fun h1 h2 => ?_, fun h1 => ?_,
    fun h1 h2 => ?_, fun h1 => ?_, fun cache msgs hch => ?_⟩
  · simp [alertMsgFor, h1, h2]
  · simp [alertMsgFor, h1, h2]
  · simp [alertMsgFor, h1, h2]
  · simp [alertMsgFor, h1]
  · have hm : alertMsgFor n = none := by simp [alertMsgFor, h1, h2]
    exact ⟨hm, hsupp hm⟩
  · push_neg at h1
    obtain ⟨e1, e2, e3⟩ := h1
    have hm : alertMsgFor n = none := by
      simp [alertMsgFor, beq_eq_false_iff_ne.mpr e1, beq_eq_false_iff_ne.mpr e2,
        beq_eq_false_iff_ne.mpr e3]
    exact ⟨hm, hsupp hm⟩
  · simp [cycleStep, hch]

/-- C6 amended witness: a QC-ready transition produces the Ready-for-QC
message, and a changed thread's cache entry is upserted. -/
theorem c6_amended_witness :
    alertMsgFor ⟨100, 758, "t", none, ["9"], ["ou"], "QC", "0/2"⟩ =
      some ("Update to thread " ++ threadUrl 100 ++ "\nStatus: **Ready for QC**") ∧
    cycleStep ⟨[], []⟩ ([], []) ⟨100, 758, "t", none, ["9"], ["ou"], "QC", "0/2"⟩ =
      (upsertCC ⟨100, 758, "t", none, ["9"], ["ou"], "QC", "0/2"⟩ [],
       [] ++ alertCCStatus ⟨100, 758, "t", none, ["9"], ["ou"], "QC", "0/2"⟩ ⟨[], []⟩) :=
  ⟨(c6_amended ⟨100, 758, "t", none, ["9"], ["ou"], "QC", "0/2"⟩ ⟨[], []⟩).2.1 rfl
      (by decide),
   (c6_amended ⟨100, 758, "t", none, ["9"], ["ou"], "QC", "0/2"⟩ ⟨[], []⟩).2.2.2.2.2.2 [] []
      (by decide)⟩

/-! ## C2: eviction -/

/-- Folding deleteCC over a removal list filters out exactly the ids of
that list. -/
theorem foldl_delete_eq_filter (rem : List CCCache) :
    ∀ cache : List CCCache,
      rem.foldl (fun acc o => deleteCC o.thread_id acc) cache =
        cache.filter (fun e => rem.all (fun o => !(e.thread_id == o.thread_id))) := by
  induction rem with
  | nil => intro cache; simp
  | cons o rem ih =>
    intro cache
    rw [List.foldl_cons, ih (deleteCC o.thread_id cache)]
    unfold deleteCC
    rw [List.filter_filter]
    refine List.filter_congr (fun e he => ?_)
    rw [List.all_cons, Bool.and_comm]

/-- The eviction step keeps exactly the cached entries whose thread id is
still present in the snapshot. -/
theorem evict_eq_filter (currentData : List XFStatusQuery) (cache : List CCCache) :
    evictCache currentData cache =
      cache.filter (fun e =>
        (currentData.map (fun d => d.thread_id)).contains e.thread_id) := by
  unfold evictCache
  rw [foldl_delete_eq_filter]
  refine List.filter_congr (fun e he => ?_)
  cases hc : (currentData.map (fun d => d.thread_id)).contains e.thread_id with
  | true =>
    rw [List.all_eq_true]
    intro o ho
    have hmem := List.of_mem_filter ho
    cases hq : e.thread_id == o.thread_id with
    | true =>
      have : e.thread_id = o.thread_id := eq_of_beq hq
      rw [this] at hc
      rw [hc] at hmem
      exact absurd hmem (by decide)
    | false => rfl
  | false =>
    have hin : e ∈ cache.filter
        (fun o => !((currentData.map (fun d => d.thread_id)).contains o.thread_id)) := by
      exact List.mem_filter.mpr ⟨he, by rw [hc]; rfl⟩
    cases hall : (cache.filter
        (fun o => !((currentData.map (fun d => d.thread_id)).contains o.thread_id))).all
          (fun o => !(e.thread_id == o.thread_id)) with
    | false => rfl
    | true =>
      have := (List.all_eq_true.mp hall) e hin
      simp at this

/-- C2: the eviction step deletes exactly the cached entries whose thread
id is absent from the snapshot — absent entries are removed, present
entries are kept even when unclassifiable (eviction only looks at ids),
and after any cycle the cached ids form a subset of the snapshot ids. -/
theorem c2_eviction_exact (currentData : List XFStatusQuery) (cache : List CCCache) :
    (∀ e ∈ cache, e.thread_id ∉ currentData.map (fun d => d.thread_id) →
      e ∉ evictCache currentData cache) ∧
    (∀ e ∈ cache, e.thread_id ∈ currentData.map (fun d => d.thread_id) →
      e ∈ evictCache currentData cache) ∧
    (∀ e ∈ evictCache currentData cache,
      e.thread_id ∈ currentData.map (fun d => d.thread_id)) ∧
    (∀ (snapshot : List XFStatusQuery) (old : ICCData) result,
      runCycle snapshot old = some result →
      ∀ e ∈ result.1, e.thread_id ∈ snapshot.map (fun d => d.thread_id)) := by
  have hmem : ∀ (cur : List XFStatusQuery) (ca : List CCCache) (e : CCCache),
      e ∈ evictCache cur ca ↔ e ∈ ca ∧ e.thread_id ∈ cur.map (fun d => d.thread_id) := by
    intro cur ca e
    rw [evict_eq_filter, List.mem_filter]
    constructor
    · rintro ⟨h1, h2⟩
      exact ⟨h1, by simpa using h2⟩
    · rintro ⟨h1, h2⟩
      exact ⟨h1, by simpa using h2⟩
  refine ⟨fun e he hab hmem2 => ?_, fun e he hp => ?_, fun e he => ?_,
    fun snapshot old result hrc e he => ?_⟩
  · exact hab ((hmem currentData cache e).mp hmem2).2
  · exact (hmem currentData cache e).mpr ⟨he, hp⟩
  · exact ((hmem currentData cache e).mp he).2
  · unfold runCycle at hrc
    by_cases hs : snapshot.isEmpty
    · rw [if_pos hs] at hrc
      cases hrc
      exact ((hmem snapshot old.threads e).mp he).2
    · rw [if_neg hs] at hrc
      cases hp : parseCCStage snapshot with
      | none => rw [hp] at hrc; exact absurd hrc (by simp)
      | some parsed =>
        rw [hp] at hrc
        dsimp only at hrc
        cases hrc
        exact ((hmem snapshot _ e).mp he).2

/-- C2 witness: a cached entry absent from the snapshot is evicted, a
present one survives, and a concrete cycle leaves only snapshot ids. -/
theorem c2_eviction_exact_witness :
    ((⟨200, "GP", "1/2"⟩ : CCCache) ∉
      evictCache [⟨100, 758, "t", none⟩] [⟨100, "QC", "0/2"⟩, ⟨200, "GP", "1/2"⟩]) ∧
    ((⟨100, "QC", "0/2"⟩ : CCCache) ∈
      evictCache [⟨100, 758, "t", none⟩] [⟨100, "QC", "0/2"⟩, ⟨200, "GP", "1/2"⟩]) :=
  ⟨(c2_eviction_exact [⟨100, 758, "t", none⟩] [⟨100, "QC", "0/2"⟩, ⟨200, "GP", "1/2"⟩]).1
      ⟨200, "GP", "1/2"⟩ (by decide) (by decide),
   (c2_eviction_exact [⟨100, 758, "t", none⟩] [⟨100, "QC", "0/2"⟩, ⟨200, "GP", "1/2"⟩]).2.1
      ⟨100, "QC", "0/2"⟩ (by decide) (by decide)⟩

/-! ## C7: unchanged threads -/

/-- parseCCStage distributes over append (classification is per
thread). -/
theorem parse_append (l1 l2 : List XFStatusQuery) :
    parseCCStage (l1 ++ l2) =
      (parseCCStage l1).bind (fun a => (parseCCStage l2).map (fun b => a ++ b)) := by
  induction l1 with
  | nil =>
    cases h2 : parseCCStage l2 with
    | none => simp [h2]
    | some b => simp [parseCCStage, h2]
  | cons t l1 ih =>
    cases hc : classifyThread t with
    | error => simp [parseCCStage, hc]
    | skip => simp [parseCCStage, hc, ih]
    | ok r =>
      simp only [List.cons_append, parseCCStage, hc]
      rw [List.append_eq, ih]
      cases hp1 : parseCCStage l1 with
      | none => rfl
      | some a =>
        cases hp2 : parseCCStage l2 with
        | none => rfl
        | some b => rfl

/-- In the current cycle (checkCCUpdates, part_005), a classified thread
whose stage and progress equal its cached entry is skipped with continue —
no notification, no cache write — and the remaining parsed threads are
processed exactly as if the thread were absent; the thread still
contributes its classification to the parsed list wherever it appears in
the snapshot. -/
theorem checkCC_unchanged_skipped (old : ICCData) (t : XFStatusQuery) (r : IXFParsedThreadData)
    (e : CCCache) (es : List CCCache)
    (h1 : classifyThread t = ClassifyOutcome.ok r)
    (h2 : old.threads.filter (fun o => o.thread_id == r.thread_id) = e :: es)
    (h3 : e.stage = r.stage) (h4 : e.progress = r.progress) :
    (∀ l1 l2, parseCCStage (l1 ++ t :: l2) =
      (parseCCStage l1).bind (fun a => (parseCCStage l2).map (fun b => a ++ r :: b))) ∧
    (∀ p1 p2 cache, processParsed old (p1 ++ r :: p2) cache =
      processParsed old (p1 ++ p2) cache) := by
  have hchg : isChanged old r = false := by
    unfold isChanged
    rw [h2]
    simp [h3, h4]
  have hstep : ∀ st, cycleStep old st r = st := by
    intro st
    unfold cycleStep
    rw [hchg]
    simp
  constructor
  · intro l1 l2
    rw [parse_append l1 (t :: l2)]
    have hm : parseCCStage (t :: l2) = (parseCCStage l2).map (fun b => r :: b) := by
      simp [parseCCStage, h1]
    rw [hm]
    cases hp1 : parseCCStage l1 with
    | none => rfl
    | some a =>
      cases hp2 : parseCCStage l2 with
      | none => rfl
      | some b => rfl
  · intro p1 p2 cache
    unfold processParsed
    rw [show p1 ++ r :: p2 = (p1 ++ [r]) ++ p2 by simp, List.foldl_append,
      List.foldl_append, List.foldl_cons, List.foldl_nil, hstep]
    rw [List.foldl_append]

/-- Concrete instance: a re-polled thread with an unchanged cache entry
produces no write and no message in checkCCUpdates. -/
theorem checkCC_unchanged_skipped_witness :
    parseCCStage [(⟨100, 758, "Garchomp", none⟩ : XFStatusQuery)] =
      some [⟨100, 758, "Garchomp", none, ["9"], ["ou"], "WIP", ""⟩] ∧
    processParsed ⟨[⟨100, "WIP", ""⟩], []⟩
        [⟨100, 758, "Garchomp", none, ["9"], ["ou"], "WIP", ""⟩] [⟨100, "WIP", ""⟩] =
      processParsed ⟨[⟨100, "WIP", ""⟩], []⟩ [] [⟨100, "WIP", ""⟩] := by
  have h := checkCC_unchanged_skipped ⟨[⟨100, "WIP", ""⟩], []⟩ ⟨100, 758, "Garchomp", none⟩
    ⟨100, 758, "Garchomp", none, ["9"], ["ou"], "WIP", ""⟩ ⟨100, "WIP", ""⟩ []
    (by decide) (by decide) rfl rfl
  exact ⟨by simpa using h.1 [] [], h.2 [] [] [⟨100, "WIP", ""⟩]⟩

/-! ## C8: per-channel deduplication -/

/-- The channel loop never posts to an already-processed channel id and
never posts to the same id twice. -/
theorem alertLoop_nodup (n : IXFParsedThreadData) :
    ∀ (chans : List AlertChan) (processed : List String),
      ((alertLoop n chans processed).map Prod.fst).Nodup ∧
      ∀ cid ∈ (alertLoop n chans processed).map Prod.fst, cid ∉ processed := by
  intro chans
  induction chans with
  | nil => intro processed; simp [alertLoop]
  | cons c rest ih =>
    intro processed
    unfold alertLoop
    cases hct : processed.contains c.channelid with
    | true => simpa using ih processed
    | false =>
      cases hmsg : alertMsgFor n with
      | none => simp
      | some m =>
        simp only [Bool.false_eq_true, if_false, List.map_cons]
        obtain ⟨ihnd, ihnotin⟩ := ih (c.channelid :: processed)
        have hnotin : c.channelid ∉
            (alertLoop n rest (c.channelid :: processed)).map Prod.fst := by
          intro hmem
          exact (ihnotin c.channelid hmem) (List.mem_cons_self _ _)
        refine ⟨List.nodup_cons.mpr ⟨hnotin, ihnd⟩, ?_⟩
        intro cid hcid
        rcases List.mem_cons.mp hcid with hc | hc
        · subst hc
          simpa using hct
        · intro hmem
          exact (ihnotin cid hc) (List.mem_cons_of_mem _ hmem)

/-- C8: within one cycle, for one transitioning thread, each channel id is
notified at most once even when several subscription rows resolve to the
same channel. -/
theorem c8_channel_dedup (n : IXFParsedThreadData) (old : ICCData) :
    ((alertCCStatus n old).map Prod.fst).Nodup ∧
    ∀ cid : String, ((alertCCStatus n old).map Prod.fst).count cid ≤ 1 := by
  have hnd : ((alertCCStatus n old).map Prod.fst).Nodup := by
    unfold alertCCStatus
    cases he : (alertChansOf n old).isEmpty with
    | true =>
      have he2 : alertChansOf n old = [] := by simpa using he
      simp [he2]
    | false =>
      simp only [he, Bool.false_eq_true, if_false]
      exact (alertLoop_nodup n (alertChansOf n old) []).1
  exact ⟨hnd, fun cid => List.nodup_iff_count_le_one.mp hnd cid⟩

/-! ## C9: determinism of classification -/

/-- C9: two threads with the same title, prefix tag and forum section are
classified identically — same skip/error outcome, and on success the same
stage, progress, generation set and tier set (the thread id plays no part
in those fields). -/
theorem c9_classification_deterministic (t1 t2 : XFStatusQuery)
    (ht : t1.title = t2.title) (hp : t1.phrase_text = t2.phrase_text)
    (hn : t1.node_id = t2.node_id) :
    (classifyThread t1 = ClassifyOutcome.skip ↔ classifyThread t2 = ClassifyOutcome.skip) ∧
    (classifyThread t1 = ClassifyOutcome.error ↔ classifyThread t2 = ClassifyOutcome.error) ∧
    ∀ r1 r2, classifyThread t1 = ClassifyOutcome.ok r1 →
      classifyThread t2 = ClassifyOutcome.ok r2 →
      r1.stage = r2.stage ∧ r1.progress = r2.progress ∧ r1.gen = r2.gen ∧ r1.tier = r2.tier := by
  unfold classifyThread
  rw [ht, hp, hn]
  cases hsp : stageProgressOf t2.title t2.phrase_text with
  | none => simp
  | some sp =>
    obtain ⟨s, p⟩ := sp
    dsimp only
    cases hg : resolveGen t2.title t2.node_id (tagPresets t2.phrase_text).1 with
    | error => simp
    | skip => simp
    | ok gen =>
      dsimp only
      cases htr : resolveTier t2.node_id (tagPresets t2.phrase_text).2 with
      | none => simp
      | some tier =>
        dsimp only
        refine ⟨by simp, by simp, fun r1 r2 h1 h2 => ?_⟩
        cases h1
        cases h2
        exact ⟨rfl, rfl, rfl, rfl⟩

/-- C9 witness: the same title, tag and section on two polls (distinct
thread records) classify identically. -/
theorem c9_classification_deterministic_witness :
    classifyThread ⟨1, 758, "x [QC 1/2]", none⟩ =
      ClassifyOutcome.ok ⟨1, 758, "x [QC 1/2]", none, ["9"], ["ou"], "QC", "1/2"⟩ ∧
    classifyThread ⟨2, 758, "x [QC 1/2]", none⟩ =
      ClassifyOutcome.ok ⟨2, 758, "x [QC 1/2]", none, ["9"], ["ou"], "QC", "1/2"⟩ ∧
    (("QC" : String) = "QC" ∧ ("1/2" : String) = "1/2" ∧
      (["9"] : List String) = ["9"] ∧ (["ou"] : List String) = ["ou"]) :=
  ⟨by decide, by decide,
    (c9_classification_deterministic ⟨1, 758, "x [QC 1/2]", none⟩
        ⟨2, 758, "x [QC 1/2]", none⟩ rfl rfl rfl).2.2
      ⟨1, 758, "x [QC 1/2]", none, ["9"], ["ou"], "QC", "1/2"⟩
      ⟨2, 758, "x [QC 1/2]", none, ["9"], ["ou"], "QC", "1/2"⟩
      (by decide) (by decide)⟩

/-! ## C10: safety of the unguarded table lookups -/

/-- pickFirst returns a result of f on some list element. -/
theorem pickFirst_some {α β : Type} {f : α → Option β} :
    ∀ {l : List α} {b : β}, pickFirst f l = some b → ∃ a ∈ l, f a = some b := by
  intro l
  induction l with
  | nil => intro b h; exact absurd h (by simp [pickFirst])
  | cons a l ih =>
    intro b h
    unfold pickFirst at h
    cases hf : f a with
    | some b2 =>
      rw [hf] at h
      have h2 : some b2 = some b := h
      exact ⟨a, List.mem_cons_self _ _, by rw [hf]; exact h2⟩
    | none =>
      rw [hf] at h
      have h2 : pickFirst f l = some b := h
      obtain ⟨a2, ha2, hfa2⟩ := ih h2
      exact ⟨a2, List.mem_cons_of_mem _ ha2, hfa2⟩

/-- A case-insensitive match has the same lower-casing as the pattern. -/
theorem ciTake_toLower (cs : List Char) :
    ∀ (w : List Char) (p : Nat) (s : List Char), ciTake cs p w = some s →
      s.map Char.toLower = w.map Char.toLower := by
  intro w
  induction w with
  | nil =>
    intro p s h
    unfold ciTake at h
    cases h
    rfl
  | cons c w ih =>
    intro p s h
    unfold ciTake at h
    cases hg : cs.get? p with
    | none => rw [hg] at h; exact absurd h (by simp)
    | some c2 =>
      rw [hg] at h
      dsimp only at h
      by_cases hl : (c2.toLower == c.toLower) = true
      · rw [if_pos hl] at h
        cases hrec : ciTake cs (p + 1) w with
        | none => rw [hrec] at h; exact absurd h (by simp)
        | some s2 =>
          rw [hrec] at h
          have hs : c2 :: s2 = s := by injection h
          subst hs
          simp only [List.map_cons, ih (p + 1) s2 hrec, eq_of_beq hl]
      · rw [if_neg hl] at h
        exact absurd h (by simp)

/-- The groups a repetition of the starred generation group can produce:
either a digit of [1-9] in group 3, or an abbreviation slice in group 4;
in both cases the gens table lookup of the lower-cased text succeeds. -/
def goodGroups (g : GenGroups) : Prop :=
  (∃ d, g.g3 = some d ∧ (gensLookup (jsToLower (String.mk [d]))).isSome = true) ∨
  (g.g3 = none ∧ ∃ s, g.g4 = some s ∧ (gensLookup (jsToLower s)).isSome = true)

/-- Every digit of [1-9] is a key of the gens table. -/
theorem genDigits_lookup :
    ∀ d ∈ genDigits, (gensLookup (jsToLower (String.mk [d]))).isSome = true := by decide

/-- Every abbreviation, lower-cased, is a key of the gens table. -/
theorem genAbbrevs_lookup :
    ∀ a ∈ genAbbrevs, (gensLookup (String.mk (a.map Char.toLower))).isSome = true := by decide

/-- Every candidate repetition carries good groups. -/
theorem repAlts_good (cs : List Char) (p : Nat) :
    ∀ x ∈ repAlts cs p, goodGroups x.2 := by
  intro x hx
  unfold repAlts at hx
  rcases List.mem_append.mp hx with hx | hx
  · cases ha : genAlt1 cs p with
    | none => rw [ha] at hx; exact absurd hx (by simp)
    | some y =>
      rw [ha] at hx
      have hxy : x = y := by simpa using hx
      subst hxy
      unfold genAlt1 at ha
      obtain ⟨w, hw, hfw⟩ := pickFirst_some ha
      cases hct : ciTake cs p w with
      | none => rw [hct] at hfw; exact absurd hfw (by simp)
      | some s =>
        rw [hct] at hfw
        dsimp only at hfw
        cases hgq : cs.get? (p + s.length + spaceRun cs (p + s.length)) with
        | none => rw [hgq] at hfw; exact absurd hfw (by simp)
        | some d =>
          rw [hgq] at hfw
          dsimp only at hfw
          by_cases hd : genDigits.contains d = true
          · rw [if_pos hd] at hfw
            have hx2 : (p + s.length + spaceRun cs (p + s.length) + 1,
                (⟨some d, none⟩ : GenGroups)) = x := by injection hfw
            rw [← hx2]
            exact Or.inl ⟨d, rfl, genDigits_lookup d (by simpa using hd)⟩
          · rw [if_neg hd] at hfw
            exact absurd hfw (by simp)
  · cases ha : genAlt2 cs p with
    | none => rw [ha] at hx; exact absurd hx (by simp)
    | some y =>
      rw [ha] at hx
      have hxy : x = y := by simpa using hx
      subst hxy
      unfold genAlt2 at ha
      obtain ⟨a, haa, hfa⟩ := pickFirst_some ha
      cases hct : ciTake cs p a with
      | none => rw [hct] at hfa; exact absurd hfa (by simp)
      | some s =>
        rw [hct] at hfa
        simp only [Option.map_some'] at hfa
        have hx2 : (p + s.length, (⟨none, some (String.mk s)⟩ : GenGroups)) = x := by
          injection hfa
        rw [← hx2]
        refine Or.inr ⟨rfl, String.mk s, rfl, ?_⟩
        have hlow : jsToLower (String.mk s) = String.mk (a.map Char.toLower) := by
          unfold jsToLower
          exact congrArg String.mk (ciTake_toLower cs a p s hct)
        rw [hlow]
        exact genAbbrevs_lookup a haa

/-- Any successful star search either stopped immediately (returning the
incoming groups) or returns the groups of its last repetition, which are
good. -/
theorem starSearch_good (cs : List Char) :
    ∀ (fuel p : Nat) (g : GenGroups) (res : Nat × GenGroups),
      starSearch cs fuel p g = some res → res = (p, g) ∨ goodGroups res.2 := by
  intro fuel
  induction fuel with
  | zero =>
    intro p g res h
    unfold starSearch at h
    by_cases hb : jsBoundary cs p = true
    · rw [if_pos hb] at h
      exact Or.inl (by injection h; simp_all)
    · rw [if_neg hb] at h
      exact absurd h (by simp)
  | succ fuel ih =>
    intro p g res h
    unfold starSearch at h
    cases hpf : pickFirst (fun eg => starSearch cs fuel eg.1 eg.2) (repAlts cs p) with
    | some res2 =>
      rw [hpf] at h
      have h2 : some res2 = some res := h
      have hres : res2 = res := by injection h2
      subst hres
      obtain ⟨eg, hegmem, hegeq⟩ := pickFirst_some hpf
      rcases ih eg.1 eg.2 res2 hegeq with heq | hgood
      · right
        rw [heq]
        exact repAlts_good cs p eg hegmem
      · exact Or.inr hgood
    | none =>
      rw [hpf] at h
      have h2 : (if jsBoundary cs p then some (p, g) else none) = some res := h
      by_cases hb : jsBoundary cs p = true
      · rw [if_pos hb] at h2
        exact Or.inl (by injection h2; simp_all)
      · rw [if_neg hb] at h2
        exact absurd h2 (by simp)

/-- The match found by the generation regex comes from a star search at
its start position. -/
theorem genMatchAux_star (cs : List Char) :
    ∀ (fuel i : Nat) (r : Nat × Nat × GenGroups), genMatchAux cs fuel i = some r →
      starSearch cs (cs.length + 1) r.1 ⟨none, none⟩ = some (r.2.1, r.2.2) := by
  intro fuel
  induction fuel with
  | zero => intro i r h; exact absurd h (by simp [genMatchAux])
  | succ fuel ih =>
    intro i r h
    unfold genMatchAux at h
    cases hatt : (if jsBoundary cs i then starSearch cs (cs.length + 1) i ⟨none, none⟩ else none) with
    | some eg =>
      rw [hatt] at h
      have h2 : some (i, eg.1, eg.2) = some r := h
      have hri : r = (i, eg.1, eg.2) := by injection h2; simp_all
      subst hri
      by_cases hb : jsBoundary cs i = true
      · rw [if_pos hb] at hatt
        simpa using hatt
      · rw [if_neg hb] at hatt
        exact absurd hatt (by simp)
    | none =>
      rw [hatt] at h
      by_cases hlt : i < cs.length
      · exact ih (i + 1) r (by rw [if_pos hlt] at h; exact h)
      · rw [if_neg hlt] at h
        exact absurd h (by simp)

/-- The node-770 generation extraction never raises the TypeError, and
every genDesr it produces is a key of the gens table. -/
theorem gen770_safe (title : String) :
    gen770Desr title ≠ Gen770.error ∧
    ∀ d, gen770Desr title = Gen770.found d → (gensLookup d).isSome = true := by
  unfold gen770Desr
  cases hm : genMatch title with
  | none => exact ⟨by simp, by simp⟩
  | some ieg =>
    obtain ⟨i, e, g⟩ := ieg
    dsimp only
    cases hei : e == i with
    | true => exact ⟨by simp [hei], by simp [hei]⟩
    | false =>
      have hstar : starSearch title.data (title.data.length + 1) i ⟨none, none⟩ = some (e, g) :=
        genMatchAux_star title.data (title.data.length + 1) 0 (i, e, g) hm
      simp only [hei, Bool.false_eq_true, if_false]
      rcases starSearch_good title.data (title.data.length + 1) i ⟨none, none⟩ (e, g) hstar with
          heq | hgood
      · have he2 : e = i := congrArg Prod.fst heq
        rw [he2] at hei
        simp at hei
      · rcases hgood with ⟨d, hd3, hdl⟩ | ⟨h3, s, h4, hsl⟩
        · have hg3 : g.g3 = some d := hd3
          rw [hg3]
          refine ⟨by simp, fun d2 hd2 => ?_⟩
          have hde : jsToLower (String.mk [d]) = d2 := by injection hd2
          rw [← hde]
          exact hdl
        · have hg3 : g.g3 = none := h3
          have hg4 : g.g4 = some s := h4
          rw [hg3, hg4]
          refine ⟨by simp, fun d2 hd2 => ?_⟩
          have hde : jsToLower s = d2 := by injection hd2
          rw [← hde]
          exact hsl

/-- Every monitored node id is a key of ccSubObj. -/
theorem ccSubIDs_lookup :
    ∀ n ∈ ccSubIDs, (ccSubObjLookup (toString n)).isSome = true := by decide

/-- In the current classifier (parseCCStage, part_005), threads from
monitored sections (node id a key of the static table, 770 included)
never raise the TypeError of an undefined lookup, whatever the title and
prefix tag: the ccSubObj lookup succeeds, and every genDesr the node-770
title parse produces is a key of the gens table. -/
theorem parseCC_monitored_safe (t : XFStatusQuery)
    (h : t.node_id ∈ ccSubIDs ∨ t.node_id = 770) :
    classifyThread t ≠ ClassifyOutcome.error ∧
    (ccSubObjLookup (toString t.node_id)).isSome = true ∧
    ∀ d, gen770Desr t.title = Gen770.found d → (gensLookup d).isSome = true := by
  have hmem : t.node_id ∈ ccSubIDs := by
    rcases h with h | h
    · exact h
    · rw [h]; decide
  have hlook : (ccSubObjLookup (toString t.node_id)).isSome = true :=
    ccSubIDs_lookup t.node_id hmem
  have hgen : ∀ g0, resolveGen t.title t.node_id g0 ≠ GenRes.error := by
    intro g0
    unfold resolveGen
    by_cases hg0 : g0.isEmpty = true
    · rw [if_pos hg0]
      cases h770 : t.node_id == 770 with
      | true =>
        simp only [h770, if_true]
        cases hd : gen770Desr t.title with
        | skip => simp
        | error => exact absurd hd (gen770_safe t.title).1
        | found d => simp
      | false =>
        simp only [h770, Bool.false_eq_true, if_false]
        cases hcc : ccSubObjLookup (toString t.node_id) with
        | none => rw [hcc] at hlook; exact absurd hlook (by simp)
        | some entry => simp
    · rw [if_neg hg0]
      simp
  have htier : ∀ t0, resolveTier t.node_id t0 ≠ none := by
    intro t0
    unfold resolveTier
    by_cases ht0 : t0.isEmpty = true
    · rw [if_pos ht0]
      cases hcc : ccSubObjLookup (toString t.node_id) with
      | none => rw [hcc] at hlook; exact absurd hlook (by simp)
      | some entry => simp
    · rw [if_neg ht0]
      simp
  refine ⟨?_, hlook, (gen770_safe t.title).2⟩
  unfold classifyThread
  cases hsp : stageProgressOf t.title t.phrase_text with
  | none => simp
  | some sp =>
    obtain ⟨s, p⟩ := sp
    dsimp only
    cases hg : resolveGen t.title t.node_id (tagPresets t.phrase_text).1 with
    | error => exact absurd hg (hgen _)
    | skip => simp
    | ok gen =>
      dsimp only
      cases htr : resolveTier t.node_id (tagPresets t.phrase_text).2 with
      | none => exact absurd htr (htier _)
      | some tier => simp

/-- Concrete instance: a node-770 thread classifies without error in
parseCCStage. -/
theorem parseCC_monitored_safe_witness :
    classifyThread ⟨1, 770, "SV Garchomp", none⟩ ≠ ClassifyOutcome.error ∧
    (ccSubObjLookup (toString 770)).isSome = true :=
  ⟨(parseCC_monitored_safe ⟨1, 770, "SV Garchomp", none⟩ (Or.inr rfl)).1,
   (parseCC_monitored_safe ⟨1, 770, "SV Garchomp", none⟩ (Or.inr rfl)).2.1⟩

/-! ## C7 and C10: the legacy findNewThreads divergences -/

/-- C7: in findNewThreads (cnc.ts line 205) an unchanged thread executes
return, not continue, so the remaining snapshot threads of the pass are
neither alerted nor written: with the unchanged thread 100 first, thread
200 is dropped, though the same pass with 200 first alerts and upserts
it.  The current checkCCUpdates (part_005) skips the unchanged thread and
still processes thread 200, as the claim states. -/
theorem c7_cnc_return_aborts :
    cncProcessThreads [⟨100, "Done", ""⟩]
        [⟨100, 758, "Pinsir", some "Done"⟩,
         ⟨200, 758, "Landorus", some "Quality Control"⟩] =
      some ([⟨100, "Done", ""⟩], []) ∧
    cncProcessThreads [⟨100, "Done", ""⟩]
        [⟨200, 758, "Landorus", some "Quality Control"⟩,
         ⟨100, 758, "Pinsir", some "Done"⟩] =
      some ([⟨100, "Done", ""⟩, ⟨200, "QC", "2/2"⟩],
        [⟨200, "QC", "2/2", "9", "ou"⟩]) ∧
    parseCCStage [⟨100, 758, "Pinsir", some "Done"⟩,
        ⟨200, 758, "Landorus", some "Quality Control"⟩] =
      some [⟨100, 758, "Pinsir", some "Done", ["9"], ["ou"], "Done", ""⟩,
        ⟨200, 758, "Landorus", some "Quality Control", ["9"], ["ou"], "QC", ""⟩] ∧
    processParsed ⟨[⟨100, "Done", ""⟩], []⟩
        [⟨100, 758, "Pinsir", some "Done", ["9"], ["ou"], "Done", ""⟩,
         ⟨200, 758, "Landorus", some "Quality Control", ["9"], ["ou"], "QC", ""⟩]
        [⟨100, "Done", ""⟩] =
      ([⟨100, "Done", ""⟩, ⟨200, "QC", ""⟩], []) := by
  refine ⟨by decide, by decide, by decide, by decide⟩

/-- C10: in findNewThreads (cnc.ts line 177) the node-770 generation
branch tests only matchArr !== null; the title Garchomp yields an empty
match with groups 3 and 4 both undefined, so
(matchArr[3] || matchArr[4]).toLowerCase() throws a TypeError even though
770 is a monitored section — classification does not complete normally.
The current parseCCStage (part_005) adds the matchArr[0] !== '' guard and
skips the thread instead. -/
theorem c10_cnc_empty_match_error :
    770 ∈ ccSubIDs ∧
    genMatch "Garchomp" = some (0, 0, ⟨none, none⟩) ∧
    cncClassify ⟨1, 770, "Garchomp", none⟩ = CncOutcome.error ∧
    classifyThread ⟨1, 770, "Garchomp", none⟩ = ClassifyOutcome.skip := by
  refine ⟨by decide, by decide, by decide, by decide⟩
